import Mathlib

/-!
Verification development for the sb-keepalive repository.

The Python sources are embedded shallowly:

* `app/models.py`  → `Project`, `KeepaliveResult`
* `app/db.py`      → `Row` (one row of the `projects` table), `Store`
                     (the table contents, in insertion order) and the
                     query/mutation functions of class `Database`
* `app/keepalive.py` → `ping_project`, `ping_rpc`, `ping_table`,
                     `ping_fallback`, `run_all`, `run_scheduled`
* `cli.py`         → `cli_run_exit` (the exit-code logic of the `run` command)

Modelling conventions:

* Python exceptions raised by the supabase client are values of
  `Except String _`; the environment `Env` packages the three remote
  operations the engine can invoke (`create_client`, `.rpc(...).execute()`,
  `.table(...).select(...).execute()`) as unconstrained functions, so
  theorems quantify over every possible remote behaviour.
* Calendar dates are day numbers (`Nat`); `datetime.utcnow().date()` and the
  ISO timestamp strings become explicit parameters (`today : Nat`,
  `Env.timestamp : String`).  SQLite compares stored ISO dates
  lexicographically, which on well-formed dates agrees with the numeric
  order used here.
* `random.randint(1, 5)` becomes a stream `draws : Nat → Nat`; the
  contract of `randint` (inclusive bounds) is a hypothesis where needed.
* The bookkeeping columns `created_at` / `updated_at` are set by SQL
  `CURRENT_TIMESTAMP` and never read by any code path the claims touch;
  they are omitted from `Row` and `Project`.
* Engine functions additionally return the list of remote operations they
  attempted (`List Call`), mirroring the order of attempts in the source;
  `Call.fallbackCheck` marks the fallback step executing (it performs no
  remote operation in the source).
* Mutation functions of `Database` return `Except String Store`: the
  `Except.error` channel is Python's exception channel.  `UPDATE` / `DELETE`
  statements whose `WHERE id = ?` clause matches no row raise nothing in
  sqlite3, so those paths produce `Except.ok`.
-/

/-- `app/models.py` dataclass `Project` (bookkeeping timestamps omitted). -/
structure Project where
  id : Nat
  name : String
  url : String
  api_key : String
  keepalive_method : String
  table_name : Option String
  enabled : Bool
  last_status : Option String
  last_checked : Option String
deriving DecidableEq

/-- `app/models.py` dataclass `KeepaliveResult`. -/
structure KeepaliveResult where
  project_id : Nat
  project_name : String
  success : Bool
  message : String
  timestamp : String
  method_used : String
deriving DecidableEq

/-- One row of the `projects` table created in `Database._init_schema`
(`app/db.py`): the `Project` fields plus the `next_run DATE` column. -/
structure Row where
  id : Nat
  name : String
  url : String
  api_key : String
  keepalive_method : String
  table_name : Option String
  enabled : Bool
  last_status : Option String
  last_checked : Option String
  next_run : Option Nat
deriving DecidableEq

/-- The `projects` table contents, in rowid order. -/
abbrev Store : Type := List Row

/-- `Project.from_dict` (`app/models.py`): builds a `Project` from a
database row; the row's `next_run` column is not a `Project` field and is
dropped. -/
def Project.from_dict (r : Row) : Project :=
  { id := r.id, name := r.name, url := r.url, api_key := r.api_key,
    keepalive_method := r.keepalive_method, table_name := r.table_name,
    enabled := r.enabled, last_status := r.last_status,
    last_checked := r.last_checked }

/-- The remote operations `app/keepalive.py` can attempt, with their
arguments self-describing which endpoint/credential/table they hit.
`fallbackCheck` marks `_ping_fallback` executing; its body performs no
remote operation. -/
inductive Call where
  | createClient (url key : String)
  | rpcKeepalive (url key : String)
  | tableSelect (url key tname : String)
  | fallbackCheck
deriving DecidableEq

/-- The environment of remote behaviour: `create_client(url, key)`,
`supabase.rpc("keepalive").execute()` and
`supabase.table(t).select("id").limit(1).execute()`, each either returning
normally (`Except.ok`) or raising (`Except.error` with the exception text),
plus the ambient `datetime.utcnow().isoformat()` value. -/
structure Env where
  createClient : String → String → Except String Unit
  rpcKeepalive : String → String → Except String Unit
  tableSelect : String → String → String → Except String Unit
  timestamp : String

/-- `KeepaliveEngine._ping_fallback` (`app/keepalive.py` lines 142-180):
the `try` body only builds a success result (client creation already
happened), so the function returns the success result; the `except` branch
of the source has no raising statement to trigger it. -/
def ping_fallback (env : Env) (p : Project) : KeepaliveResult × List Call :=
  ({ project_id := p.id, project_name := p.name, success := true,
     message := "Fallback connectivity check succeeded",
     timestamp := env.timestamp, method_used := "fallback" },
   [Call.fallbackCheck])

/-- `KeepaliveEngine._ping_rpc` (`app/keepalive.py` lines 76-106): call the
`keepalive` RPC; on any exception, fall back. -/
def ping_rpc (env : Env) (p : Project) : KeepaliveResult × List Call :=
  match env.rpcKeepalive p.url p.api_key with
  | Except.ok _ =>
      ({ project_id := p.id, project_name := p.name, success := true,
         message := "RPC keepalive() succeeded",
         timestamp := env.timestamp, method_used := "rpc" },
       [Call.rpcKeepalive p.url p.api_key])
  | Except.error _ =>
      let fb := ping_fallback env p
      (fb.1, Call.rpcKeepalive p.url p.api_key :: fb.2)

/-- `KeepaliveEngine._ping_table` (`app/keepalive.py` lines 108-140): read
one `id` from `project.table_name or "users"`; on any exception, fall
back. -/
def ping_table (env : Env) (p : Project) : KeepaliveResult × List Call :=
  let tname := p.table_name.getD "users"
  match env.tableSelect p.url p.api_key tname with
  | Except.ok _ =>
      ({ project_id := p.id, project_name := p.name, success := true,
         message := "Table query on \x27" ++ tname ++ "\x27 succeeded",
         timestamp := env.timestamp, method_used := "table:" ++ tname },
       [Call.tableSelect p.url p.api_key tname])
  | Except.error _ =>
      let fb := ping_fallback env p
      (fb.1, Call.tableSelect p.url p.api_key tname :: fb.2)

/-- `KeepaliveEngine.ping_project` (`app/keepalive.py` lines 32-74): create
the client, dispatch on `keepalive_method`; an unknown method yields a
failed result without any further step; an exception from `create_client`
is caught by the outer `except`, which builds a failed result with
`method_used = project.keepalive_method` and `message = str(e)`.
(`_ping_rpc` / `_ping_table` catch internally and cannot raise, so
`create_client` is the only raising statement the outer `try` guards.) -/
def ping_project (env : Env) (p : Project) : KeepaliveResult × List Call :=
  match env.createClient p.url p.api_key with
  | Except.error e =>
      ({ project_id := p.id, project_name := p.name, success := false,
         message := e, timestamp := env.timestamp,
         method_used := p.keepalive_method },
       [Call.createClient p.url p.api_key])
  | Except.ok _ =>
      if p.keepalive_method = "rpc" then
        let r := ping_rpc env p
        (r.1, Call.createClient p.url p.api_key :: r.2)
      else if p.keepalive_method = "table" then
        let r := ping_table env p
        (r.1, Call.createClient p.url p.api_key :: r.2)
      else
        ({ project_id := p.id, project_name := p.name, success := false,
           message := "Unknown method: " ++ p.keepalive_method,
           timestamp := env.timestamp, method_used := p.keepalive_method },
         [Call.createClient p.url p.api_key])

/-- `ORDER BY name` on the unique `name TEXT` column. -/
def sortByName (l : List Row) : List Row :=
  l.insertionSort (fun a b => a.name ≤ b.name)

/-- `Database.get_all_projects` (`app/db.py` lines 132-151):
`SELECT * FROM projects [WHERE enabled = 1] ORDER BY name`. -/
def get_all_projects (store : Store) (enabled_only : Bool) : List Row :=
  if enabled_only then sortByName (List.filter (fun r => r.enabled) store)
  else sortByName store

/-- The `next_run IS NULL OR next_run <= today` condition of
`Database.get_scheduled_projects`. -/
def dueToday (r : Row) (today : Nat) : Bool :=
  match r.next_run with
  | none => true
  | some d => d ≤ today

/-- `Database.get_scheduled_projects` (`app/db.py` lines 153-173):
`SELECT * FROM projects WHERE enabled = 1 AND (next_run IS NULL OR
next_run <= ?) ORDER BY name`, with `?` = today's UTC date. -/
def get_scheduled_projects (store : Store) (today : Nat) : List Row :=
  sortByName (List.filter (fun r => r.enabled && dueToday r today) store)

/-- `Database.get_project` (`app/db.py` lines 117-130):
`SELECT * FROM projects WHERE id = ?`, `None` when no row matches. -/
def get_project (store : Store) (id : Nat) : Option Row :=
  List.find? (fun r => r.id = id) store

/-- `Database.update_status` (`app/db.py` lines 175-198): `UPDATE projects
SET last_status = ?, last_checked = ? WHERE id = ?`. -/
def update_status (store : Store) (id : Nat) (status ts : String) : Store :=
  List.map (fun r => if r.id = id then
    { r with last_status := some status, last_checked := some ts } else r) store

/-- `Database.update_next_run` (`app/db.py` lines 200-217): `UPDATE projects
SET next_run = ? WHERE id = ?`. -/
def update_next_run (store : Store) (id : Nat) (d : Nat) : Store :=
  List.map (fun r => if r.id = id then { r with next_run := some d } else r) store

/-- `Database.enable_project` (`app/db.py` lines 219-226): `UPDATE projects
SET enabled = 1 WHERE id = ?`; sqlite raises nothing when no row matches,
so every input returns through the ordinary channel. -/
def enable_project (store : Store) (id : Nat) : Except String Store :=
  Except.ok (List.map (fun r => if r.id = id then { r with enabled := true } else r) store)

/-- `Database.disable_project` (`app/db.py` lines 228-235): `UPDATE projects
SET enabled = 0 WHERE id = ?`. -/
def disable_project (store : Store) (id : Nat) : Except String Store :=
  Except.ok (List.map (fun r => if r.id = id then { r with enabled := false } else r) store)

/-- `Database.delete_project` (`app/db.py` lines 237-241): `DELETE FROM
projects WHERE id = ?`. -/
def delete_project (store : Store) (id : Nat) : Except String Store :=
  Except.ok (List.filter (fun r => !decide (r.id = id)) store)

/-- Apply the provided optional field values to one row, as the dynamic
`SET` clause of `Database.update_project` does. -/
def applyUpdates (nm u k m t : Option String) (r : Row) : Row :=
  { r with name := nm.getD r.name, url := u.getD r.url,
           api_key := k.getD r.api_key,
           keepalive_method := m.getD r.keepalive_method,
           table_name := match t with | none => r.table_name | some s => some s }

/-- `Database.update_project` (`app/db.py` lines 243-292): with no field
given, return immediately; otherwise `UPDATE projects SET ... WHERE id = ?`.
Setting `name` to another existing row's name violates the `UNIQUE`
constraint and raises `sqlite3.IntegrityError` — but only when the `WHERE`
clause matched a row that actually receives the conflicting name. -/
def update_project (store : Store) (id : Nat)
    (nm u k m t : Option String) : Except String Store :=
  if nm.isNone ∧ u.isNone ∧ k.isNone ∧ m.isNone ∧ t.isNone then
    Except.ok store
  else if (match nm with
           | some s => List.any store (fun r => decide (r.id = id)) &&
                       List.any store (fun r => decide (r.name = s) && !decide (r.id = id))
           | none => false) then
    Except.error "UNIQUE constraint failed: projects.name"
  else
    Except.ok (List.map (fun r => if r.id = id then applyUpdates nm u k m t r else r) store)

/-- The write-back events a batch run issues against the store, in order. -/
inductive Write where
  | status (id : Nat) (status ts : String)
  | nextRun (id : Nat) (d : Nat)
deriving DecidableEq

/-- The per-project loop of `KeepaliveEngine.run_all` (`app/keepalive.py`
lines 209-218): ping, append the result, immediately write
`"SUCCESS"` / `"FAILED: <message>"` with the result's timestamp. -/
def runAllLoop (env : Env) : List Project → Store → List KeepaliveResult × Store × List Write
  | [], s => ([], s, [])
  | p :: ps, s =>
      let r := (ping_project env p).1
      let st := if r.success then "SUCCESS" else "FAILED: " ++ r.message
      let s1 := update_status s p.id st r.timestamp
      let rest := runAllLoop env ps s1
      (r :: rest.1, rest.2.1, Write.status p.id st r.timestamp :: rest.2.2)

/-- `KeepaliveEngine.run_all` (`app/keepalive.py` lines 182-228): select the
enabled projects, return `[]` untouched when there are none, else run the
loop. -/
def run_all (env : Env) (store : Store) : List KeepaliveResult × Store × List Write :=
  if (get_all_projects store true).isEmpty then ([], store, [])
  else runAllLoop env ((get_all_projects store true).map Project.from_dict) store

/-- The per-project loop of `KeepaliveEngine.run_scheduled`
(`app/keepalive.py` lines 261-284): ping, write status, then draw
`random.randint(1, 5)` and persist `today + draw` as the new `next_run`.
`idx` indexes into the stream of random draws. -/
def runScheduledLoop (env : Env) (today : Nat) (draws : Nat → Nat) :
    List Project → Nat → Store → List KeepaliveResult × Store × List Write
  | [], _, s => ([], s, [])
  | p :: ps, idx, s =>
      let r := (ping_project env p).1
      let st := if r.success then "SUCCESS" else "FAILED: " ++ r.message
      let s1 := update_status s p.id st r.timestamp
      let d := draws idx
      let s2 := update_next_run s1 p.id (today + d)
      let rest := runScheduledLoop env today draws ps (idx + 1) s2
      (r :: rest.1, rest.2.1,
       Write.status p.id st r.timestamp :: Write.nextRun p.id (today + d) :: rest.2.2)

/-- `KeepaliveEngine.run_scheduled` (`app/keepalive.py` lines 230-294). -/
def run_scheduled (env : Env) (today : Nat) (draws : Nat → Nat) (store : Store) :
    List KeepaliveResult × Store × List Write :=
  if (get_scheduled_projects store today).isEmpty then ([], store, [])
  else runScheduledLoop env today draws
    ((get_scheduled_projects store today).map Project.from_dict) 0 store

/-- The exit-code logic of the `run` command (`cli.py` lines 62-77): count
failed results; `sys.exit(1)` when any failed, otherwise the command ends
normally with exit status 0. -/
def cli_run_exit (env : Env) (store : Store) : Nat :=
  if ((run_all env store).1.filter (fun r => !r.success)).length > 0 then 1 else 0

/-! ## Concrete fixtures used by witnesses and counterexamples -/

/-- An environment where every remote operation succeeds. -/
def envAllOk : Env :=
  { createClient := fun _ _ => Except.ok (),
    rpcKeepalive := fun _ _ => Except.ok (),
    tableSelect := fun _ _ _ => Except.ok (),
    timestamp := "t0" }

/-- An environment where `create_client` itself raises. -/
def envCtorFails : Env :=
  { createClient := fun _ _ => Except.error "connection refused",
    rpcKeepalive := fun _ _ => Except.ok (),
    tableSelect := fun _ _ _ => Except.ok (),
    timestamp := "t0" }

/-- An environment where the client is created but both primary remote
operations raise. -/
def envPrimaryFails : Env :=
  { createClient := fun _ _ => Except.ok (),
    rpcKeepalive := fun _ _ => Except.error "rpc missing",
    tableSelect := fun _ _ _ => Except.error "table missing",
    timestamp := "t0" }

/-- An `rpc`-method project. -/
def pAlpha : Project :=
  { id := 1, name := "alpha", url := "https://a.supabase.co", api_key := "ka",
    keepalive_method := "rpc", table_name := none, enabled := true,
    last_status := none, last_checked := none }

/-- A `table`-method project. -/
def pBeta : Project :=
  { id := 2, name := "beta", url := "https://b.supabase.co", api_key := "kb",
    keepalive_method := "table", table_name := some "users", enabled := true,
    last_status := none, last_checked := none }

/-- A project with an unknown `keepalive_method`. -/
def pGamma : Project :=
  { id := 3, name := "gamma", url := "https://c.supabase.co", api_key := "kc",
    keepalive_method := "push", table_name := none, enabled := true,
    last_status := none, last_checked := none }

/-- Database rows for the store-level claims. -/
def rowA : Row :=
  { id := 1, name := "alpha", url := "https://a.supabase.co", api_key := "ka",
    keepalive_method := "rpc", table_name := none, enabled := true,
    last_status := none, last_checked := none, next_run := none }

def rowB : Row :=
  { id := 2, name := "beta", url := "https://b.supabase.co", api_key := "kb",
    keepalive_method := "table", table_name := some "users", enabled := true,
    last_status := none, last_checked := none, next_run := some 12 }

def rowC : Row :=
  { id := 3, name := "gamma", url := "https://c.supabase.co", api_key := "kc",
    keepalive_method := "rpc", table_name := none, enabled := false,
    last_status := none, last_checked := none, next_run := none }

/-- A store holding the three rows, deliberately out of name order. -/
def storeW : Store := [rowB, rowC, rowA]

/-! ## Helper lemmas shared by the claim theorems -/

/-- No `table:<name>` tag is the string `"fallback"`. -/
theorem tableTag_ne_fallback (n : String) : "table:" ++ n ≠ "fallback" := by
  intro h
  have h3 : ("table:" ++ n).data = "fallback".data := by rw [h]
  rw [String.data_append] at h3
  have e1 : "table:".data = ['t', 'a', 'b', 'l', 'e', ':'] := rfl
  have e2 : "fallback".data = ['f', 'a', 'l', 'l', 'b', 'a', 'c', 'k'] := rfl
  rw [e1, e2] at h3
  simp at h3

/-- Every result built by the engine carries the project's id and name and
the ambient timestamp. -/
theorem ping_project_fields (env : Env) (p : Project) :
    (ping_project env p).1.project_id = p.id ∧
    (ping_project env p).1.project_name = p.name ∧
    (ping_project env p).1.timestamp = env.timestamp := by
  unfold ping_project ping_rpc ping_table ping_fallback
  cases h : env.createClient p.url p.api_key with
  | error e => simp
  | ok u =>
    by_cases h1 : p.keepalive_method = "rpc"
    · simp only [h1, if_pos]
      cases h2 : env.rpcKeepalive p.url p.api_key <;> simp
    · by_cases h3 : p.keepalive_method = "table"
      · simp only [h1, h3, if_neg, if_pos]
        cases h4 : env.tableSelect p.url p.api_key (p.table_name.getD "users") <;> simp
      · simp [h1, h3]

/-! ## Claim C1 -/

/-- C1 counterexample: with `create_client` raising `"connection refused"`
on the `rpc`-method project `pAlpha`, `ping_project` returns a failed
result whose `method_used` is `"rpc"` — the project's configured method —
and not `"fallback"` as the claim states. -/
theorem ping_project_ctor_error_counterexample :
    (ping_project envCtorFails pAlpha).1.success = false ∧
    (ping_project envCtorFails pAlpha).1.method_used = "rpc" ∧
    ("rpc" : String) ≠ "fallback" := by
  refine ⟨rfl, rfl, by decide⟩

/-- C1 (amended): if constructing the client raises with message `e`,
`ping_project` returns a failed result whose `method_used` is the project's
configured method and whose message is the error text `e`. -/
theorem ping_project_ctor_error_result (env : Env) (p : Project) (e : String)
    (h : env.createClient p.url p.api_key = Except.error e) :
    (ping_project env p).1 =
      { project_id := p.id, project_name := p.name, success := false,
        message := e, timestamp := env.timestamp,
        method_used := p.keepalive_method } := by
  simp [ping_project, h]

/-- C1 witness: the amended statement evaluated on `pAlpha` with
`create_client` failing. -/
theorem ping_project_ctor_error_result_witness :
    (ping_project envCtorFails pAlpha).1 =
      { project_id := 1, project_name := "alpha", success := false,
        message := "connection refused", timestamp := "t0",
        method_used := "rpc" } :=
  ping_project_ctor_error_result envCtorFails pAlpha "connection refused" rfl

/-! ## Claim C2 -/

/-- C2: for a project whose method is `rpc` or `table`, if the primary
remote operation raises, the result's `method_used` is `"fallback"` —
never `"rpc"` and never a `table:<name>` tag. -/
theorem primary_failure_method_used_fallback (env : Env) (p : Project)
    (hc : env.createClient p.url p.api_key = Except.ok ())
    (hp : (p.keepalive_method = "rpc" ∧
            ∃ e, env.rpcKeepalive p.url p.api_key = Except.error e) ∨
          (p.keepalive_method = "table" ∧
            ∃ e, env.tableSelect p.url p.api_key (p.table_name.getD "users") =
              Except.error e)) :
    (ping_project env p).1.method_used = "fallback" ∧
    (ping_project env p).1.method_used ≠ "rpc" ∧
    ∀ n, (ping_project env p).1.method_used ≠ "table:" ++ n := by
  have hmu : (ping_project env p).1.method_used = "fallback" := by
    rcases hp with ⟨hm, e, he⟩ | ⟨hm, e, he⟩
    · simp [ping_project, hc, hm, ping_rpc, he, ping_fallback]
    · simp [ping_project, hc, hm, ping_table, he, ping_fallback]
  refine ⟨hmu, ?_, ?_⟩
  · rw [hmu]; decide
  · intro n
    rw [hmu]
    exact Ne.symm (tableTag_ne_fallback n)

/-- C2 witness: the `rpc` project `pAlpha` in an environment where the RPC
raises. -/
theorem primary_failure_method_used_fallback_witness :
    (ping_project envPrimaryFails pAlpha).1.method_used = "fallback" ∧
    (ping_project envPrimaryFails pAlpha).1.method_used ≠ "rpc" ∧
    (ping_project envPrimaryFails pAlpha).1.method_used ≠ "table:" ++ "users" :=
  have h := primary_failure_method_used_fallback envPrimaryFails pAlpha rfl
    (Or.inl ⟨rfl, ⟨"rpc missing", rfl⟩⟩)
  ⟨h.1, h.2.1, h.2.2 "users"⟩

/-! ## Claim C3 -/

/-- C3: `ping_project` is a total function into `KeepaliveResult` — every
exception any remote operation raises is caught (the embedding has no
escaping `Except` channel) — and every failed result carries the project's
identity and a message naming its cause: either the unknown-method text or
the text of the exception `create_client` raised. -/
theorem ping_project_never_raises (env : Env) (p : Project) :
    (ping_project env p).1.project_id = p.id ∧
    (ping_project env p).1.project_name = p.name ∧
    ((ping_project env p).1.success = false →
      (ping_project env p).1.message = "Unknown method: " ++ p.keepalive_method ∨
      ∃ e, env.createClient p.url p.api_key = Except.error e ∧
        (ping_project env p).1.message = e) := by
  refine ⟨(ping_project_fields env p).1, (ping_project_fields env p).2.1, ?_⟩
  intro hfail
  unfold ping_project at hfail ⊢
  cases h : env.createClient p.url p.api_key with
  | error e => exact Or.inr ⟨e, rfl, by simp [h]⟩
  | ok u =>
    rw [h] at hfail
    by_cases h1 : p.keepalive_method = "rpc"
    · exfalso
      simp only [h1, if_pos] at hfail
      unfold ping_rpc ping_fallback at hfail
      cases h2 : env.rpcKeepalive p.url p.api_key <;> simp [h2] at hfail
    · by_cases h3 : p.keepalive_method = "table"
      · exfalso
        simp only [h1, h3, if_neg, if_pos, if_true, if_false] at hfail
        unfold ping_table ping_fallback at hfail
        cases h4 : env.tableSelect p.url p.api_key (p.table_name.getD "users") <;>
          simp [h4] at hfail
      · simp [h, h1, h3]

/-- C3 witness: on `pAlpha` with `create_client` raising, the failure is
captured as a result carrying the exception text. -/
theorem ping_project_never_raises_witness :
    (ping_project envCtorFails pAlpha).1.project_id = 1 ∧
    ((ping_project envCtorFails pAlpha).1.message =
        "Unknown method: " ++ pAlpha.keepalive_method ∨
      ∃ e, envCtorFails.createClient pAlpha.url pAlpha.api_key = Except.error e ∧
        (ping_project envCtorFails pAlpha).1.message = e) :=
  ⟨(ping_project_never_raises envCtorFails pAlpha).1,
   (ping_project_never_raises envCtorFails pAlpha).2.2 rfl⟩

/-! ## Claim C7 -/

/-- C7 counterexample: `pGamma` has the unknown method `"push"`, yet when
`create_client` raises, the returned message is the construction error —
not `"Unknown method: push"` — because `ping_project` constructs the client
before checking the method. -/
theorem unknown_method_ctor_error_counterexample :
    pGamma.keepalive_method = "push" ∧
    (ping_project envCtorFails pGamma).1.success = false ∧
    (ping_project envCtorFails pGamma).1.message = "connection refused" ∧
    ("connection refused" : String) ≠ "Unknown method: push" := by
  refine ⟨rfl, rfl, rfl, by decide⟩

/-- C7 (amended): for a project whose method is neither `rpc` nor `table`,
*provided the client construction succeeds*, `ping_project` returns a
failed result with `method_used` the configured method and message exactly
`"Unknown method: <method>"`, and attempts no remote operation beyond the
client construction itself — in particular neither primary step nor the
fallback step runs. -/
theorem unknown_method_result (env : Env) (p : Project)
    (h1 : p.keepalive_method ≠ "rpc") (h2 : p.keepalive_method ≠ "table")
    (hc : env.createClient p.url p.api_key = Except.ok ()) :
    (ping_project env p).1.success = false ∧
    (ping_project env p).1.method_used = p.keepalive_method ∧
    (ping_project env p).1.message = "Unknown method: " ++ p.keepalive_method ∧
    (ping_project env p).2 = [Call.createClient p.url p.api_key] := by
  simp [ping_project, hc, h1, h2]

/-- C7 witness: the amended statement evaluated on `pGamma` with a
successfully constructed client. -/
theorem unknown_method_result_witness :
    (ping_project envAllOk pGamma).1.success = false ∧
    (ping_project envAllOk pGamma).1.method_used = pGamma.keepalive_method ∧
    (ping_project envAllOk pGamma).1.message =
      "Unknown method: " ++ pGamma.keepalive_method ∧
    (ping_project envAllOk pGamma).2 =
      [Call.createClient pGamma.url pGamma.api_key] :=
  unknown_method_result envAllOk pGamma (by decide) (by decide) rfl

/-! ## Claim C10 -/

/-- C10: once the client is constructed, a project with method `rpc` or
`table` always gets a successful result, whatever the primary operation
does — and `_ping_fallback` itself can only produce a success, its failure
branch being unreachable. -/
theorem client_ok_known_method_success :
    (∀ (env : Env) (p : Project),
      env.createClient p.url p.api_key = Except.ok () →
      (p.keepalive_method = "rpc" ∨ p.keepalive_method = "table") →
      (ping_project env p).1.success = true) ∧
    ∀ (env : Env) (p : Project), (ping_fallback env p).1.success = true := by
  constructor
  · intro env p hc hm
    rcases hm with hm | hm
    · cases h2 : env.rpcKeepalive p.url p.api_key <;>
        simp [ping_project, hc, hm, ping_rpc, h2, ping_fallback]
    · cases h4 : env.tableSelect p.url p.api_key (p.table_name.getD "users") <;>
        simp [ping_project, hc, hm, ping_table, h4, ping_fallback]
  · intro env p
    rfl

/-- C10 witness: the `table` project `pBeta` succeeds even though its table
read raises. -/
theorem client_ok_known_method_success_witness :
    (ping_project envPrimaryFails pBeta).1.success = true ∧
    (ping_fallback envPrimaryFails pBeta).1.success = true :=
  ⟨client_ok_known_method_success.1 envPrimaryFails pBeta rfl (Or.inr rfl),
   client_ok_known_method_success.2 envPrimaryFails pBeta⟩

/-! ## Claim C5 -/

/-- The `dueToday` filter condition, characterised against the spec's
wording: `next_run` is null or at most `today`. -/
theorem dueToday_iff (r : Row) (today : Nat) :
    dueToday r today = true ↔
      (r.next_run = none ∨ ∃ d, r.next_run = some d ∧ d ≤ today) := by
  unfold dueToday
  cases hnr : r.next_run with
  | none => simp
  | some d => simp [decide_eq_true_eq]

/-- C5: `get_scheduled_projects` returns exactly the enabled rows whose
`next_run` is null or ≤ `today`, sorted by name ascending; a disabled row
is never selected, whatever its `next_run`. -/
theorem get_scheduled_projects_spec (store : Store) (today : Nat) :
    (∀ r : Row, r ∈ get_scheduled_projects store today ↔
      (r ∈ store ∧ r.enabled = true ∧
        (r.next_run = none ∨ ∃ d, r.next_run = some d ∧ d ≤ today))) ∧
    List.Sorted (fun a b : Row => a.name ≤ b.name)
      (get_scheduled_projects store today) ∧
    (∀ r ∈ store, r.enabled = false → r ∉ get_scheduled_projects store today) := by
  have hmem : ∀ r : Row, r ∈ get_scheduled_projects store today ↔
      (r ∈ store ∧ r.enabled = true ∧
        (r.next_run = none ∨ ∃ d, r.next_run = some d ∧ d ≤ today)) := by
    intro r
    unfold get_scheduled_projects sortByName
    rw [List.mem_insertionSort, List.mem_filter, Bool.and_eq_true, dueToday_iff]
  refine ⟨hmem, ?_, ?_⟩
  · unfold get_scheduled_projects sortByName
    haveI : IsTotal Row (fun a b : Row => a.name ≤ b.name) :=
      ⟨fun a b => le_total a.name b.name⟩
    haveI : IsTrans Row (fun a b : Row => a.name ≤ b.name) :=
      ⟨fun _ _ _ hab hbc => le_trans hab hbc⟩
    exact List.sorted_insertionSort _ _
  · intro r _ hen hmem2
    have h2 := ((hmem r).1 hmem2).2.1
    rw [hen] at h2
    cases h2

/-- C5 witness: on the concrete store, the enabled never-run row `rowA` is
selected and the disabled row `rowC` is not. -/
theorem get_scheduled_projects_spec_witness :
    rowA ∈ get_scheduled_projects storeW 10 ∧
    rowC ∉ get_scheduled_projects storeW 10 :=
  ⟨((get_scheduled_projects_spec storeW 10).1 rowA).mpr
      ⟨by decide, rfl, Or.inl rfl⟩,
   (get_scheduled_projects_spec storeW 10).2.2 rowC (by decide) rfl⟩

/-! ## Claim C8 -/

/-- C8 counterexample: on the empty store no id exists, yet `enable`,
`disable`, `delete` and `update` with id 5 all return through the ordinary
success channel (no exception, hence no NotFound condition), leaving the
store unchanged — and `get_project` is the only operation that reports
nonexistence (as `none`). -/
theorem mutations_missing_id_counterexample :
    enable_project [] 5 = Except.ok [] ∧
    disable_project [] 5 = Except.ok [] ∧
    delete_project [] 5 = Except.ok [] ∧
    update_project [] 5 (some "n2") none none none none = Except.ok [] ∧
    get_project [] 5 = none :=
  ⟨rfl, rfl, rfl, rfl, rfl⟩

/-- C8 (amended): against an id that matches no row, the store's mutating
operations silently succeed and leave the store untouched; no NotFound
condition is signalled by the store layer.  Nonexistence is observable only
through `get_project`, which returns `none` — the check the CLI commands
perform before mutating. -/
theorem mutations_missing_id_noop (s : Store) (i : Nat)
    (h : ∀ r ∈ s, r.id ≠ i) :
    enable_project s i = Except.ok s ∧
    disable_project s i = Except.ok s ∧
    delete_project s i = Except.ok s ∧
    (∀ nm u k m t, update_project s i nm u k m t = Except.ok s) ∧
    get_project s i = none := by
  have hmapgen : ∀ (f : Row → Row),
      List.map (fun r => if r.id = i then f r else r) s = s := by
    intro f
    have hcong : ∀ r ∈ s, (if r.id = i then f r else r) = r := by
      intro r hr
      rw [if_neg (h r hr)]
    calc List.map (fun r => if r.id = i then f r else r) s
        = List.map (fun r => r) s := List.map_congr_left hcong
      _ = s := List.map_id' s
  refine ⟨?_, ?_, ?_, ?_, ?_⟩
  · unfold enable_project
    rw [hmapgen]
  · unfold disable_project
    rw [hmapgen]
  · unfold delete_project
    rw [List.filter_eq_self.mpr]
    intro r hr
    simp [h r hr]
  · intro nm u k m t
    have h1 : List.any s (fun r => decide (r.id = i)) = false := by
      rw [List.any_eq_false]
      intro r hr
      simp [h r hr]
    by_cases hall : nm.isNone ∧ u.isNone ∧ k.isNone ∧ m.isNone ∧ t.isNone
    · simp [update_project, hall]
    · cases nm with
      | none => simp [update_project, hall, hmapgen]
      | some s2 => simp [update_project, hall, h1, hmapgen]
  · unfold get_project
    rw [List.find?_eq_none]
    intro r hr
    simp [h r hr]

/-- C8 witness: the amended statement evaluated on the concrete store with
the fresh id 99. -/
theorem mutations_missing_id_noop_witness :
    enable_project storeW 99 = Except.ok storeW ∧
    update_project storeW 99 (some "x") none none none none = Except.ok storeW ∧
    get_project storeW 99 = none :=
  have h := mutations_missing_id_noop storeW 99 (by decide)
  ⟨h.1, h.2.2.2.1 (some "x") none none none none, h.2.2.2.2⟩

/-! ## Claim C9 -/

/-- C9: the CLI `run` command exits 0 exactly when every result succeeded;
any failed result forces a non-zero exit, and the empty batch exits 0. -/
theorem cli_run_exit_spec (env : Env) (store : Store) :
    (cli_run_exit env store = 0 ↔
      ∀ r ∈ (run_all env store).1, r.success = true) ∧
    ((∃ r ∈ (run_all env store).1, r.success = false) →
      cli_run_exit env store ≠ 0) ∧
    ((run_all env store).1 = [] → cli_run_exit env store = 0) := by
  have key : ((run_all env store).1.filter (fun r => !r.success) = []) ↔
      ∀ r ∈ (run_all env store).1, r.success = true := by
    rw [List.filter_eq_nil_iff]
    constructor
    · intro hf r hr
      have := hf r hr
      simpa using this
    · intro hall r hr
      simp [hall r hr]
  have hiff : cli_run_exit env store = 0 ↔
      ∀ r ∈ (run_all env store).1, r.success = true := by
    unfold cli_run_exit
    by_cases hf : (run_all env store).1.filter (fun r => !r.success) = []
    · rw [hf]
      simp only [List.length_nil, gt_iff_lt, lt_irrefl, if_false]
      constructor
      · intro _
        exact key.mp hf
      · intro _
        trivial
    · have hlen : ((run_all env store).1.filter (fun r => !r.success)).length > 0 :=
        List.length_pos.mpr hf
      rw [if_pos hlen]
      constructor
      · intro h01
        cases h01
      · intro hall
        exact absurd (key.mpr hall) hf
  refine ⟨hiff, ?_, ?_⟩
  · rintro ⟨r, hr, hfail⟩ h0
    have := hiff.mp h0 r hr
    rw [hfail] at this
    cases this
  · intro hempty
    apply hiff.mpr
    rw [hempty]
    intro r hr
    cases hr

/-- C9 witness: with `create_client` failing everywhere, the one-project
store produces a failing batch and the exit status is non-zero. -/
theorem cli_run_exit_spec_witness : cli_run_exit envCtorFails [rowA] ≠ 0 :=
  (cli_run_exit_spec envCtorFails [rowA]).2.1 (by decide)

/-! ## Claim C6 -/

/-- The `run_all` loop: its result list and its write list are pointwise
maps over the processed projects — in particular they do not depend on the
intermediate store states the status writes thread through. -/
theorem runAllLoop_spec (env : Env) : ∀ (ps : List Project) (s : Store),
    (runAllLoop env ps s).1 = ps.map (fun p => (ping_project env p).1) ∧
    (runAllLoop env ps s).2.2 = ps.map (fun p =>
      Write.status p.id
        (if (ping_project env p).1.success then "SUCCESS"
         else "FAILED: " ++ (ping_project env p).1.message)
        (ping_project env p).1.timestamp) := by
  intro ps
  induction ps with
  | nil =>
    intro s
    exact ⟨rfl, rfl⟩
  | cons p ps ih =>
    intro s
    simp only [runAllLoop, List.map_cons]
    exact ⟨by rw [(ih _).1], by rw [(ih _).2]⟩

/-- C6: the all-enabled batch run returns one result per selected project,
in the selection's (name-ascending) order; each processed project gets
exactly one status write, built from its own result as `"SUCCESS"` or
`"FAILED: <message>"` together with the result's timestamp; and an empty
selection yields no results and no writes, with the store untouched. -/
theorem run_all_spec (env : Env) (store : Store) :
    ((run_all env store).1.map (fun r => (r.project_id, r.project_name)) =
      (get_all_projects store true).map (fun p => (p.id, p.name))) ∧
    ((run_all env store).2.2 = (run_all env store).1.map (fun r =>
      Write.status r.project_id
        (if r.success then "SUCCESS" else "FAILED: " ++ r.message)
        r.timestamp)) ∧
    List.Sorted (fun a b : String => a ≤ b)
      ((run_all env store).1.map (fun r => r.project_name)) ∧
    (get_all_projects store true = [] → run_all env store = ([], store, [])) := by
  by_cases hsel : get_all_projects store true = []
  · have hrun : run_all env store = ([], store, []) := by
      unfold run_all
      rw [hsel]
      rfl
    rw [hrun, hsel]
    exact ⟨rfl, rfl, List.sorted_nil, fun _ => rfl⟩
  · have hie : (get_all_projects store true).isEmpty = false :=
      List.isEmpty_eq_false.mpr hsel
    have hrun : run_all env store =
        runAllLoop env ((get_all_projects store true).map Project.from_dict) store := by
      unfold run_all
      rw [hie]
      simp
    have hpairs : (run_all env store).1.map (fun r => (r.project_id, r.project_name)) =
        (get_all_projects store true).map (fun p => (p.id, p.name)) := by
      rw [hrun, (runAllLoop_spec env _ store).1, List.map_map, List.map_map]
      apply List.map_congr_left
      intro row _
      simp only [Function.comp_apply]
      rw [(ping_project_fields env (Project.from_dict row)).1,
        (ping_project_fields env (Project.from_dict row)).2.1]
      rfl
    refine ⟨hpairs, ?_, ?_, ?_⟩
    · rw [hrun, (runAllLoop_spec env _ store).2, (runAllLoop_spec env _ store).1,
        List.map_map, List.map_map, List.map_map]
      apply List.map_congr_left
      intro row _
      simp only [Function.comp_apply]
      rw [(ping_project_fields env (Project.from_dict row)).1]
    · have hnames : (run_all env store).1.map (fun r => r.project_name) =
          (get_all_projects store true).map (fun p => p.name) := by
        calc (run_all env store).1.map (fun r => r.project_name)
            = ((run_all env store).1.map
                (fun r => (r.project_id, r.project_name))).map Prod.snd := by
              rw [List.map_map]
              exact List.map_congr_left (fun r _ => rfl)
          _ = ((get_all_projects store true).map (fun p => (p.id, p.name))).map
                Prod.snd := by rw [hpairs]
          _ = (get_all_projects store true).map (fun p => p.name) := by
              rw [List.map_map]
              exact List.map_congr_left (fun p _ => rfl)
      rw [hnames]
      have hsorted : List.Sorted (fun a b : Row => a.name ≤ b.name)
          (get_all_projects store true) := by
        unfold get_all_projects sortByName
        haveI : IsTotal Row (fun a b : Row => a.name ≤ b.name) :=
          ⟨fun a b => le_total a.name b.name⟩
        haveI : IsTrans Row (fun a b : Row => a.name ≤ b.name) :=
          ⟨fun _ _ _ hab hbc => le_trans hab hbc⟩
        simp only [if_true]
        exact List.sorted_insertionSort _ _
      rw [List.Sorted, List.pairwise_map]
      exact hsorted
    · intro h
      exact absurd h hsel

/-- C6 witness: a store whose only project is disabled selects nothing; the
run returns no results, writes nothing and leaves the store unchanged. -/
theorem run_all_spec_witness : run_all envAllOk [rowC] = ([], [rowC], []) :=
  (run_all_spec envAllOk [rowC]).2.2.2 (by decide)

/-! ## Claim C4 -/

/-- A status write never touches `next_run` or `id`; rows with a different
id pass through it untouched. -/
theorem mem_update_status_of_ne (s : Store) (j : Nat) (st ts : String)
    {row : Row} (hmem : row ∈ update_status s j st ts) (hne : row.id ≠ j) :
    row ∈ s := by
  unfold update_status at hmem
  rcases List.mem_map.1 hmem with ⟨r0, hr0, heq⟩
  by_cases h0 : r0.id = j
  · rw [if_pos h0] at heq
    rw [← heq] at hne
    exact absurd h0 hne
  · rw [if_neg h0] at heq
    exact heq ▸ hr0

/-- Rows with a different id pass through a `next_run` write untouched. -/
theorem mem_update_next_run_of_ne (s : Store) (j v : Nat)
    {row : Row} (hmem : row ∈ update_next_run s j v) (hne : row.id ≠ j) :
    row ∈ s := by
  unfold update_next_run at hmem
  rcases List.mem_map.1 hmem with ⟨r0, hr0, heq⟩
  by_cases h0 : r0.id = j
  · rw [if_pos h0] at heq
    rw [← heq] at hne
    exact absurd h0 hne
  · rw [if_neg h0] at heq
    exact heq ▸ hr0

/-- A row of `update_next_run s j v` whose id is `j` carries `next_run = v`. -/
theorem next_run_of_mem_update (s : Store) (j v : Nat) {row : Row}
    (hmem : row ∈ update_next_run s j v) (hid : row.id = j) :
    row.next_run = some v := by
  unfold update_next_run at hmem
  rcases List.mem_map.1 hmem with ⟨r0, hr0, heq⟩
  by_cases h0 : r0.id = j
  · rw [if_pos h0] at heq
    rw [← heq]
  · rw [if_neg h0] at heq
    exact absurd (by rw [heq]; exact hid) h0

/-- Status writes preserve the multiset of row ids. -/
theorem ids_update_status (s : Store) (j : Nat) (st ts : String) :
    (update_status s j st ts).map Row.id = s.map Row.id := by
  unfold update_status
  rw [List.map_map]
  apply List.map_congr_left
  intro r _
  by_cases h0 : r.id = j <;> simp [h0]

/-- `next_run` writes preserve the multiset of row ids. -/
theorem ids_update_next_run (s : Store) (j v : Nat) :
    (update_next_run s j v).map Row.id = s.map Row.id := by
  unfold update_next_run
  rw [List.map_map]
  apply List.map_congr_left
  intro r _
  by_cases h0 : r.id = j <;> simp [h0]

/-- The scheduled loop never adds or removes rows: the final store has the
same row ids as the initial one. -/
theorem runScheduledLoop_ids (env : Env) (today : Nat) (draws : Nat → Nat) :
    ∀ (ps : List Project) (idx : Nat) (s : Store),
      ((runScheduledLoop env today draws ps idx s).2.1).map Row.id = s.map Row.id := by
  intro ps
  induction ps with
  | nil =>
    intro idx s
    rfl
  | cons p ps ih =>
    intro idx s
    simp only [runScheduledLoop]
    rw [ih, ids_update_next_run, ids_update_status]

/-- A row whose id is not among the processed projects passes through the
whole scheduled loop untouched. -/
theorem runScheduledLoop_mem_of_not_processed (env : Env) (today : Nat)
    (draws : Nat → Nat) :
    ∀ (ps : List Project) (idx : Nat) (s : Store) (row : Row),
      row ∈ (runScheduledLoop env today draws ps idx s).2.1 →
      row.id ∉ ps.map Project.id → row ∈ s := by
  intro ps
  induction ps with
  | nil =>
    intro idx s row h _
    exact h
  | cons p ps ih =>
    intro idx s row hmem hnp
    simp only [List.map_cons, List.mem_cons, not_or] at hnp
    simp only [runScheduledLoop] at hmem
    have h2 := ih _ _ row hmem hnp.2
    exact mem_update_status_of_ne _ _ _ _
      (mem_update_next_run_of_ne _ _ _ h2 hnp.1) hnp.1

/-- Every row of the final store whose id belongs to a processed project
holds `next_run = today + draw` for the draw of some iteration; under the
`randint(1, 5)` contract that value is `today + k` with `1 ≤ k ≤ 5`. -/
theorem runScheduledLoop_next_run (env : Env) (today : Nat) (draws : Nat → Nat)
    (hd : ∀ n, 1 ≤ draws n ∧ draws n ≤ 5) :
    ∀ (ps : List Project) (idx : Nat) (s : Store) (row : Row),
      row ∈ (runScheduledLoop env today draws ps idx s).2.1 →
      row.id ∈ ps.map Project.id →
      ∃ k, 1 ≤ k ∧ k ≤ 5 ∧ row.next_run = some (today + k) := by
  intro ps
  induction ps with
  | nil =>
    intro idx s row _ hin
    cases hin
  | cons p ps ih =>
    intro idx s row hmem hin
    simp only [runScheduledLoop] at hmem
    by_cases hin2 : row.id ∈ ps.map Project.id
    · exact ih _ _ row hmem hin2
    · have hidp : row.id = p.id := by
        simp only [List.map_cons, List.mem_cons] at hin
        rcases hin with h | h
        · exact h
        · exact absurd h hin2
      have h2 := runScheduledLoop_mem_of_not_processed env today draws ps
        (idx + 1) _ row hmem hin2
      have h3 := next_run_of_mem_update _ _ _ h2 hidp
      exact ⟨draws idx, (hd idx).1, (hd idx).2, h3⟩

/-- C4: after a scheduled run on date `today`, every row of the persisted
store belonging to a project the run selected still exists and carries
`next_run = today + k` for some `1 ≤ k ≤ 5` — whatever the pings did and
for every possible sequence of `randint(1, 5)` draws. -/
theorem run_scheduled_next_run_bounds (env : Env) (today : Nat)
    (draws : Nat → Nat) (store : Store)
    (hd : ∀ n, 1 ≤ draws n ∧ draws n ≤ 5) :
    ∀ p ∈ get_scheduled_projects store today,
      (∃ row ∈ (run_scheduled env today draws store).2.1, row.id = p.id) ∧
      (∀ row ∈ (run_scheduled env today draws store).2.1, row.id = p.id →
        ∃ k, 1 ≤ k ∧ k ≤ 5 ∧ row.next_run = some (today + k)) := by
  intro p hp
  have hne : get_scheduled_projects store today ≠ [] := by
    intro h
    rw [h] at hp
    cases hp
  have hie : (get_scheduled_projects store today).isEmpty = false :=
    List.isEmpty_eq_false.mpr hne
  have hrun : run_scheduled env today draws store =
      runScheduledLoop env today draws
        ((get_scheduled_projects store today).map Project.from_dict) 0 store := by
    unfold run_scheduled
    rw [hie]
    simp
  have hpid : p.id ∈ ((get_scheduled_projects store today).map
      Project.from_dict).map Project.id := by
    rw [List.map_map]
    exact List.mem_map.2 ⟨p, hp, rfl⟩
  constructor
  · have hp_store : p ∈ store := by
      unfold get_scheduled_projects sortByName at hp
      exact (List.mem_filter.1 ((List.mem_insertionSort _).mp hp)).1
    have hid_store : p.id ∈ store.map Row.id := List.mem_map.2 ⟨p, hp_store, rfl⟩
    have hids := runScheduledLoop_ids env today draws
      ((get_scheduled_projects store today).map Project.from_dict) 0 store
    rw [hrun]
    have hfin : p.id ∈ ((runScheduledLoop env today draws
        ((get_scheduled_projects store today).map Project.from_dict) 0
        store).2.1).map Row.id := by
      rw [hids]
      exact hid_store
    rcases List.mem_map.1 hfin with ⟨row, hrow, hideq⟩
    exact ⟨row, hrow, hideq⟩
  · intro row hrow hideq
    apply runScheduledLoop_next_run env today draws hd
      ((get_scheduled_projects store today).map Project.from_dict) 0 store row
      (hrun ▸ hrow)
    rw [hideq]
    exact hpid

/-- The row `rowA` as persisted by the concrete scheduled run of the
witness below: status written, then `next_run := 10 + 2`. -/
def rowA_after : Row :=
  { rowA with last_status := some "SUCCESS", last_checked := some "t0",
              next_run := some 12 }

/-- C4 witness: a concrete scheduled run (today = 10, every draw = 2) on the
concrete store keeps a row for the selected project `rowA` and persists its
`next_run` as `10 + k` with `1 ≤ k ≤ 5`. -/
theorem run_scheduled_next_run_bounds_witness :
    (∃ row ∈ (run_scheduled envAllOk 10 (fun _ => 2) storeW).2.1, row.id = 1) ∧
    (∃ k, 1 ≤ k ∧ k ≤ 5 ∧ rowA_after.next_run = some (10 + k)) :=
  have h := run_scheduled_next_run_bounds envAllOk 10 (fun _ => 2) storeW
    (by intro n; constructor <;> norm_num) rowA (by decide)
  ⟨h.1, h.2 rowA_after (by decide) rfl⟩
